import Mathlib

/-!
Verification of the `surrogate` synchronization pipeline
(`src/surrogate/src/main.rs`): a poller that reads a remote change log,
routes entries by key prefix, fetches full records, and hands queue items
to a writer that upserts/deletes rows in a relational store.

The embedding follows the source closely: the poller's per-entry routing,
`vec_to_u64`, `slice_to_array`, and `handle_database_operation` are
translated function by function.  External effects (RPC responses, the
relational store) become explicit oracle inputs and an explicit store
state.
-/

namespace Surrogate

/-- The operation kind of a change entry, from the `vemodel` crate's
`Method` enum.  Modelled from the spec: the crate is not under `src/`,
but `main.rs` matches exactly the three variants Create, Update, Delete. -/
inductive Method where
  | Create
  | Update
  | Delete
deriving DecidableEq, Repr

/-- Modelled from the spec: the `vemodel` crate's `VeSubspace` record
(crate not under `src/`).  Field names and optionality are taken from the
uses in `main.rs` and from the relational schema in `setup_database`. -/
structure VeSubspace where
  id : Nat
  title : String
  slug : String
  description : Option String
  banner : Option String
  status : Nat
  weight : Nat
  created_time : Nat
deriving DecidableEq, Repr

/-- Modelled from the spec: the `vemodel` crate's `VeArticle` record
(crate not under `src/`).  Field names and optionality are taken from the
uses in `main.rs` and from the relational schema in `setup_database`. -/
structure VeArticle where
  id : Nat
  title : String
  content : String
  author_id : Nat
  author_nickname : String
  subspace_id : Nat
  ext_link : Option String
  status : Nat
  weight : Nat
  created_time : Nat
  updated_time : Nat
deriving DecidableEq, Repr

/-- Modelled from the spec: the `vemodel` crate's `VeComment` record
(crate not under `src/`).  Field names and optionality are taken from the
uses in `main.rs` and from the relational schema in `setup_database`. -/
structure VeComment where
  id : Nat
  content : String
  author_id : Nat
  author_nickname : String
  post_id : Nat
  status : Nat
  weight : Nat
  created_time : Nat
deriving DecidableEq, Repr

/-- Modelled from the spec: the `vemodel` crate's `PREFIX_SUBSPACE_KEY`
constant, one of "three distinct 5-byte values" (crate not under `src/`);
the concrete bytes stand in for the unknown constant. -/
def PREFIX_SUBSPACE_KEY : List Nat := [115, 117, 98, 115, 112]

/-- Modelled from the spec: the `vemodel` crate's `PREFIX_ARTICLE_KEY`
constant (crate not under `src/`). -/
def PREFIX_ARTICLE_KEY : List Nat := [97, 114, 116, 105, 99]

/-- Modelled from the spec: the `vemodel` crate's `PREFIX_COMMENT_KEY`
constant (crate not under `src/`). -/
def PREFIX_COMMENT_KEY : List Nat := [99, 111, 109, 109, 101]

/-- Big-endian value of a byte list, as computed by `u64::from_be_bytes`. -/
def beBytes (l : List Nat) : Nat :=
  l.foldl (fun acc b => acc * 256 + b) 0

/-- `vec_to_u64` from `main.rs`: an 8-byte array initialized to zero, the
first `min (v.length) 8` bytes of `v` copied to its front, read
big-endian.  Trailing bytes beyond 8 are ignored; a short input occupies
the most-significant positions with low-order zeros. -/
def vec_to_u64 (v : List Nat) : Nat :=
  beBytes (v.take (min v.length 8) ++ List.replicate (8 - min v.length 8) 0)

/-- `slice_to_array` from `main.rs`: `slice.try_into()` into `[u8; 5]`,
which succeeds exactly when the slice has length 5. -/
def slice_to_array (slice : List Nat) : Except String (List Nat) :=
  if slice.length = 5 then Except.ok slice
  else Except.error "Slice must be 5 bytes long"

/-- The JSON value travelling on the channel: `serde_json::to_value`
applied either to a fetched record (create/update) or to the bare numeric
id (delete). -/
inductive JsonValue where
  | subspaceVal (sb : VeSubspace)
  | articleVal (a : VeArticle)
  | commentVal (c : VeComment)
  | numVal (n : Nat)
deriving DecidableEq, Repr

/-- `serde_json::Value::as_i64`: a `u64`-backed number converts exactly
when it is at most `i64::MAX`; records (JSON objects) yield `none`. -/
def jsonAsI64 (v : JsonValue) : Option Int :=
  match v with
  | JsonValue.numVal n => if n < 2 ^ 63 then some (Int.ofNat n) else none
  | _ => none

/-- `serde_json::from_value::<VeSubspace>`: succeeds exactly on a value
serialized from a `VeSubspace` (another record misses mandatory fields,
a number is not an object). -/
def fromValueSubspace (v : JsonValue) : Option VeSubspace :=
  match v with
  | JsonValue.subspaceVal sb => some sb
  | _ => none

/-- `serde_json::from_value::<VeArticle>`. -/
def fromValueArticle (v : JsonValue) : Option VeArticle :=
  match v with
  | JsonValue.articleVal a => some a
  | _ => none

/-- `serde_json::from_value::<VeComment>`. -/
def fromValueComment (v : JsonValue) : Option VeComment :=
  match v with
  | JsonValue.commentVal c => some c
  | _ => none

/-- Rust's `as i64` cast on a `u64` value: two's-complement wrap at
`2 ^ 64`. -/
def asI64 (n : Nat) : Int :=
  if n % 2 ^ 64 < 2 ^ 63 then Int.ofNat (n % 2 ^ 64)
  else Int.ofNat (n % 2 ^ 64) - 2 ^ 64

/-- Rust's `as i16` cast: two's-complement wrap at `2 ^ 16`. -/
def asI16 (n : Nat) : Int :=
  if n % 2 ^ 16 < 2 ^ 15 then Int.ofNat (n % 2 ^ 16)
  else Int.ofNat (n % 2 ^ 16) - 2 ^ 16

/-- A row of the `subspaces` table (`id BIGINT PRIMARY KEY`, text columns,
`SMALLINT` status/weight, `BIGINT` created_time). -/
structure SubspaceRow where
  id : Int
  title : String
  slug : String
  description : Option String
  banner : Option String
  status : Int
  weight : Int
  created_time : Int
deriving DecidableEq, Repr

/-- A row of the `articles` table. -/
structure ArticleRow where
  id : Int
  title : String
  content : String
  author_id : Int
  author_nickname : String
  subspace_id : Int
  ext_link : Option String
  status : Int
  weight : Int
  created_time : Int
  updated_time : Int
deriving DecidableEq, Repr

/-- A row of the `comments` table. -/
structure CommentRow where
  id : Int
  content : String
  author_id : Int
  author_nickname : String
  post_id : Int
  status : Int
  weight : Int
  created_time : Int
deriving DecidableEq, Repr

/-- The parameter list of the subspace upsert in
`handle_database_operation`, with the `as i64` / `as i16` casts applied. -/
def subspaceToRow (sb : VeSubspace) : SubspaceRow :=
  { id := asI64 sb.id
    title := sb.title
    slug := sb.slug
    description := sb.description
    banner := sb.banner
    status := asI16 sb.status
    weight := asI16 sb.weight
    created_time := asI64 sb.created_time }

/-- The parameter list of the article upsert. -/
def articleToRow (a : VeArticle) : ArticleRow :=
  { id := asI64 a.id
    title := a.title
    content := a.content
    author_id := asI64 a.author_id
    author_nickname := a.author_nickname
    subspace_id := asI64 a.subspace_id
    ext_link := a.ext_link
    status := asI16 a.status
    weight := asI16 a.weight
    created_time := asI64 a.created_time
    updated_time := asI64 a.updated_time }

/-- The parameter list of the comment upsert. -/
def commentToRow (c : VeComment) : CommentRow :=
  { id := asI64 c.id
    content := c.content
    author_id := asI64 c.author_id
    author_nickname := c.author_nickname
    post_id := asI64 c.post_id
    status := asI16 c.status
    weight := asI16 c.weight
    created_time := asI64 c.created_time }

/-- The relational store: the three tables created by `setup_database`. -/
structure Store where
  subspaces : List SubspaceRow
  articles : List ArticleRow
  comments : List CommentRow
deriving DecidableEq, Repr

/-- `INSERT ... ON CONFLICT (id) DO UPDATE SET ...`: if a row with the
same primary id exists, every column is overwritten with the new values;
otherwise the new row is inserted. -/
def upsertRow {α : Type} (getId : α → Int) (t : List α) (r : α) : List α :=
  if t.any (fun x => getId x = getId r) then
    t.map (fun x => if getId x = getId r then r else x)
  else t ++ [r]

/-- `DELETE FROM t WHERE id = x`: removes the matching rows. -/
def deleteRow {α : Type} (getId : α → Int) (t : List α) (x : Int) : List α :=
  t.filter (fun r => getId r ≠ x)

/-- Outcome of one `handle_database_operation` call: `ok` with the new
store, a returned `Err` (logged by the writer), or a Rust panic
(`unwrap` failure), which kills the writer task. -/
inductive DbOutcome where
  | ok (s : Store)
  | error (msg : String)
  | panic
deriving DecidableEq, Repr

/-- `handle_database_operation` from `main.rs`, with the Postgres client
replaced by the explicit store.  Foreign-key constraints from
`setup_database` (`articles.subspace_id → subspaces.id`,
`comments.post_id → articles.id`) make `client.execute` fail: an upsert
referencing a missing parent errors, and a delete errors exactly when a
removed row is still referenced. -/
def handle_database_operation (s : Store) (model : String) (method : Method)
    (value : JsonValue) : DbOutcome :=
  match model, method with
  | "subspace", Method.Create | "subspace", Method.Update =>
    match fromValueSubspace value with
    | none => DbOutcome.error "json decode error"
    | some sb =>
      DbOutcome.ok { s with subspaces := upsertRow SubspaceRow.id s.subspaces (subspaceToRow sb) }
  | "article", Method.Create | "article", Method.Update =>
    match fromValueArticle value with
    | none => DbOutcome.error "json decode error"
    | some a =>
      let row := articleToRow a
      if s.subspaces.any (fun r => r.id = row.subspace_id) then
        DbOutcome.ok { s with articles := upsertRow ArticleRow.id s.articles row }
      else DbOutcome.error "foreign key violation"
  | "comment", Method.Create | "comment", Method.Update =>
    match fromValueComment value with
    | none => DbOutcome.error "json decode error"
    | some c =>
      let row := commentToRow c
      if s.articles.any (fun r => r.id = row.post_id) then
        DbOutcome.ok { s with comments := upsertRow CommentRow.id s.comments row }
      else DbOutcome.error "foreign key violation"
  | m, Method.Delete =>
    match jsonAsI64 value with
    | none => DbOutcome.panic
    | some id =>
      match m with
      | "subspace" =>
        if s.subspaces.any (fun r => r.id = id) ∧
            s.articles.any (fun r => r.subspace_id = id) then
          DbOutcome.error "foreign key violation"
        else DbOutcome.ok { s with subspaces := deleteRow SubspaceRow.id s.subspaces id }
      | "article" =>
        if s.articles.any (fun r => r.id = id) ∧
            s.comments.any (fun r => r.post_id = id) then
          DbOutcome.error "foreign key violation"
        else DbOutcome.ok { s with articles := deleteRow ArticleRow.id s.articles id }
      | "comment" =>
        DbOutcome.ok { s with comments := deleteRow CommentRow.id s.comments id }
      | _ => DbOutcome.error "Invalid model type"
  | _, _ => DbOutcome.error "Invalid operation"

/-- An item on the bounded channel: `(model, method, json value)` as sent
by `tx.send` in `main.rs`. -/
structure QueueItem where
  model : String
  method : Method
  value : JsonValue
deriving DecidableEq, Repr

/-- Result of running the writer task over a list of dequeued items:
final store, error log (in arrival order), and whether the task died on a
panic before consuming the remaining items. -/
structure WriterResult where
  store : Store
  log : List String
  panicked : Bool
deriving DecidableEq, Repr

/-- The writer loop spawned in `main`: for each dequeued item, call
`handle_database_operation`; on a returned error, print it and continue
with the next item; a panic aborts the task. -/
def runWriter (s : Store) : List QueueItem → WriterResult
  | [] => { store := s, log := [], panicked := false }
  | it :: rest =>
    match handle_database_operation s it.model it.method it.value with
    | DbOutcome.ok s2 => runWriter s2 rest
    | DbOutcome.error e =>
      let r := runWriter s rest
      { r with log := e :: r.log }
    | DbOutcome.panic => { store := s, log := [], panicked := true }

/-- One entry of the change log: the decoded
`(sequence, Method, key bytes)` triple. -/
structure ChangeEntry where
  reqnum : Nat
  method : Method
  key : List Nat
deriving DecidableEq, Repr

/-- What one `nucleus_get` fetch yields after the hex/SCALE decoding in
`main.rs`: a malformed envelope (`decode(..).unwrap()` panics), a decoded
remote `Err(String)`, a decoded `Ok(None)`, or a decoded `Ok(Some _)`. -/
inductive FetchResult (α : Type) where
  | decodeFail
  | remoteErr (msg : String)
  | notFound
  | found (rec : α)
deriving DecidableEq, Repr

/-- The remote `nucleus_get` endpoint, one method per entity type, as an
oracle indexed by the hex-encoded id the poller sends. -/
structure FetchOracle where
  get_subspace : Nat → FetchResult VeSubspace
  get_article : Nat → FetchResult VeArticle
  get_comment : Nat → FetchResult VeComment

/-- Outcome of routing a single change entry in the poller loop: a queue
item sent on the channel, a silent drop, or a panic that kills the
process (the `&key[..5]` slice on a short key, or an `unwrap` on a
malformed fetch response). -/
inductive StepOutcome where
  | emit (item : QueueItem)
  | skip
  | panic
deriving DecidableEq, Repr

/-- The body of the `for (reqnum, method, key) in res?` loop in `main`:
slice the first 5 key bytes (panicking when the key is shorter), match
them against the three prefixes, and for a recognized prefix either fetch
the record (create/update) or forward the id (delete). -/
def processEntry (oracle : FetchOracle) (e : ChangeEntry) : StepOutcome :=
  if e.key.length < 5 then StepOutcome.panic
  else
    match slice_to_array (e.key.take 5) with
    | Except.error _ => StepOutcome.panic
    | Except.ok p =>
      if p = PREFIX_SUBSPACE_KEY then
        let id := vec_to_u64 (e.key.drop 5)
        match e.method with
        | Method.Create | Method.Update =>
          match oracle.get_subspace id with
          | FetchResult.decodeFail => StepOutcome.panic
          | FetchResult.found sb =>
            StepOutcome.emit ⟨"subspace", e.method, JsonValue.subspaceVal sb⟩
          | _ => StepOutcome.skip
        | Method.Delete =>
          StepOutcome.emit ⟨"subspace", Method.Delete, JsonValue.numVal id⟩
      else if p = PREFIX_ARTICLE_KEY then
        let id := vec_to_u64 (e.key.drop 5)
        match e.method with
        | Method.Create | Method.Update =>
          match oracle.get_article id with
          | FetchResult.decodeFail => StepOutcome.panic
          | FetchResult.found a =>
            StepOutcome.emit ⟨"article", e.method, JsonValue.articleVal a⟩
          | _ => StepOutcome.skip
        | Method.Delete =>
          StepOutcome.emit ⟨"article", Method.Delete, JsonValue.numVal id⟩
      else if p = PREFIX_COMMENT_KEY then
        let id := vec_to_u64 (e.key.drop 5)
        match e.method with
        | Method.Create | Method.Update =>
          match oracle.get_comment id with
          | FetchResult.decodeFail => StepOutcome.panic
          | FetchResult.found c =>
            StepOutcome.emit ⟨"comment", e.method, JsonValue.commentVal c⟩
          | _ => StepOutcome.skip
        | Method.Delete =>
          StepOutcome.emit ⟨"comment", Method.Delete, JsonValue.numVal id⟩
      else StepOutcome.skip

/-- Result of one poll cycle's entry loop: the queue items sent in order,
the sentinel after the loop, and whether the process died mid-cycle. -/
structure CycleResult where
  items : List QueueItem
  sentinel : Nat
  fatal : Bool
deriving DecidableEq, Repr

/-- The entry loop of one poll cycle: each entry is routed, then
`sentinel = reqnum` runs — also for silently dropped entries.  A panic
aborts the loop before that entry's sentinel update. -/
def runEntries (oracle : FetchOracle) (sentinel : Nat) :
    List ChangeEntry → CycleResult
  | [] => { items := [], sentinel := sentinel, fatal := false }
  | e :: rest =>
    match processEntry oracle e with
    | StepOutcome.panic => { items := [], sentinel := sentinel, fatal := true }
    | StepOutcome.emit it =>
      let r := runEntries oracle e.reqnum rest
      { r with items := it :: r.items }
    | StepOutcome.skip => runEntries oracle e.reqnum rest

/-- The primary `nucleus_post("get_from_common_key", ...)` response after
hex decoding: a malformed envelope (the `.unwrap()` panics), a remote
`Err(String)` (the `res?` aborts `main`), or the entry list. -/
inductive PollInput where
  | decodeFail
  | remoteErr (msg : String)
  | entries (es : List ChangeEntry)
deriving DecidableEq, Repr

/-- One iteration of the poller loop in `main`: decode the change-log
response (malformed envelope or remote error is fatal), then run the
entry loop. -/
def pollCycle (oracle : FetchOracle) (sentinel : Nat) (input : PollInput) :
    CycleResult :=
  match input with
  | PollInput.decodeFail => { items := [], sentinel := sentinel, fatal := true }
  | PollInput.remoteErr _ => { items := [], sentinel := sentinel, fatal := true }
  | PollInput.entries es => runEntries oracle sentinel es

/-- An oracle whose every fetch reports "not found" (`Ok(None)`). -/
def notFoundOracle : FetchOracle :=
  { get_subspace := fun _ => FetchResult.notFound
    get_article := fun _ => FetchResult.notFound
    get_comment := fun _ => FetchResult.notFound }

/-- An oracle whose every fetch decodes to a remote `Err(String)`. -/
def errOracle : FetchOracle :=
  { get_subspace := fun _ => FetchResult.remoteErr "boom"
    get_article := fun _ => FetchResult.remoteErr "boom"
    get_comment := fun _ => FetchResult.remoteErr "boom" }

/-- The store with all three tables empty, as after `setup_database` on a
fresh database. -/
def emptyStore : Store := { subspaces := [], articles := [], comments := [] }

/-- A concrete subspace record used to instantiate universally quantified
theorems (the spec's example record). -/
def sbExample : VeSubspace :=
  { id := 42, title := "Intro", slug := "intro", description := none
    banner := none, status := 1, weight := 0, created_time := 1700000000 }

/-- A concrete delete entry on a subspace key, sequence 1. -/
def entW1 : ChangeEntry :=
  { reqnum := 1, method := Method.Delete
    key := PREFIX_SUBSPACE_KEY ++ [0, 0, 0, 0, 0, 0, 0, 1] }

/-- A concrete entry with an unrecognized 5-byte key, sequence 2. -/
def entW2 : ChangeEntry :=
  { reqnum := 2, method := Method.Delete, key := [9, 9, 9, 9, 9] }

section Lemmas

/-- On a key of length at least 5, `slice_to_array` of the first 5 bytes
always succeeds. -/
theorem slice_to_array_take5 (key : List Nat) (h : 5 ≤ key.length) :
    slice_to_array (key.take 5) = Except.ok (key.take 5) := by
  have hl : (key.take 5).length = 5 := by
    simp only [List.length_take]
    omega
  simp [slice_to_array, hl]

/-- Normal form of `processEntry` on a subspace-prefixed key. -/
theorem processEntry_subspace (oracle : FetchOracle) (e : ChangeEntry)
    (h5 : 5 ≤ e.key.length) (hp : e.key.take 5 = PREFIX_SUBSPACE_KEY) :
    processEntry oracle e =
      match e.method with
      | Method.Create | Method.Update =>
        match oracle.get_subspace (vec_to_u64 (e.key.drop 5)) with
        | FetchResult.decodeFail => StepOutcome.panic
        | FetchResult.found sb =>
          StepOutcome.emit ⟨"subspace", e.method, JsonValue.subspaceVal sb⟩
        | _ => StepOutcome.skip
      | Method.Delete =>
        StepOutcome.emit
          ⟨"subspace", Method.Delete, JsonValue.numVal (vec_to_u64 (e.key.drop 5))⟩ := by
  have hlen : ¬ e.key.length < 5 := Nat.not_lt.mpr h5
  have hs : slice_to_array PREFIX_SUBSPACE_KEY = Except.ok PREFIX_SUBSPACE_KEY := rfl
  simp [processEntry, hlen, hp, hs]

/-- Normal form of `processEntry` on an article-prefixed key. -/
theorem processEntry_article (oracle : FetchOracle) (e : ChangeEntry)
    (h5 : 5 ≤ e.key.length) (hp : e.key.take 5 = PREFIX_ARTICLE_KEY) :
    processEntry oracle e =
      match e.method with
      | Method.Create | Method.Update =>
        match oracle.get_article (vec_to_u64 (e.key.drop 5)) with
        | FetchResult.decodeFail => StepOutcome.panic
        | FetchResult.found a =>
          StepOutcome.emit ⟨"article", e.method, JsonValue.articleVal a⟩
        | _ => StepOutcome.skip
      | Method.Delete =>
        StepOutcome.emit
          ⟨"article", Method.Delete, JsonValue.numVal (vec_to_u64 (e.key.drop 5))⟩ := by
  have hlen : ¬ e.key.length < 5 := Nat.not_lt.mpr h5
  have hne : PREFIX_ARTICLE_KEY ≠ PREFIX_SUBSPACE_KEY := by decide
  have hs : slice_to_array PREFIX_ARTICLE_KEY = Except.ok PREFIX_ARTICLE_KEY := rfl
  simp [processEntry, hlen, hp, hs, hne]

/-- Normal form of `processEntry` on a comment-prefixed key. -/
theorem processEntry_comment (oracle : FetchOracle) (e : ChangeEntry)
    (h5 : 5 ≤ e.key.length) (hp : e.key.take 5 = PREFIX_COMMENT_KEY) :
    processEntry oracle e =
      match e.method with
      | Method.Create | Method.Update =>
        match oracle.get_comment (vec_to_u64 (e.key.drop 5)) with
        | FetchResult.decodeFail => StepOutcome.panic
        | FetchResult.found c =>
          StepOutcome.emit ⟨"comment", e.method, JsonValue.commentVal c⟩
        | _ => StepOutcome.skip
      | Method.Delete =>
        StepOutcome.emit
          ⟨"comment", Method.Delete, JsonValue.numVal (vec_to_u64 (e.key.drop 5))⟩ := by
  have hlen : ¬ e.key.length < 5 := Nat.not_lt.mpr h5
  have hne1 : PREFIX_COMMENT_KEY ≠ PREFIX_SUBSPACE_KEY := by decide
  have hne2 : PREFIX_COMMENT_KEY ≠ PREFIX_ARTICLE_KEY := by decide
  have hs : slice_to_array PREFIX_COMMENT_KEY = Except.ok PREFIX_COMMENT_KEY := rfl
  simp [processEntry, hlen, hp, hs, hne1, hne2]

end Lemmas

/-- C5: for keys of length ≥ 5, the routed id `vec_to_u64 (key.drop 5)`
is the big-endian value of bytes 5..13 when 13 bytes are present (later
bytes ignored), is the big-endian value of a shorter suffix zero-padded
on the low end otherwise, and is 0 for an empty suffix. -/
theorem vec_to_u64_layout (key : List Nat) (h5 : 5 ≤ key.length) :
    (13 ≤ key.length →
      vec_to_u64 (key.drop 5) = beBytes ((key.drop 5).take 8)) ∧
    (key.length < 13 →
      vec_to_u64 (key.drop 5) =
        beBytes (key.drop 5 ++ List.replicate (8 - (key.length - 5)) 0)) ∧
    (key.length = 5 → vec_to_u64 (key.drop 5) = 0) := by
  have hdl : (key.drop 5).length = key.length - 5 := List.length_drop 5 key
  refine ⟨?_, ?_, ?_⟩
  · intro h13
    have hmin : min (key.drop 5).length 8 = 8 := by
      rw [hdl]; omega
    unfold vec_to_u64
    rw [hmin]
    simp
  · intro h13
    have hmin : min (key.drop 5).length 8 = (key.drop 5).length := by
      rw [hdl]; omega
    unfold vec_to_u64
    rw [hmin, List.take_length, hdl]
  · intro heq
    have hnil : key.drop 5 = [] := by
      apply List.eq_nil_of_length_eq_zero
      rw [hdl, heq]
    rw [hnil]
    decide

/-- Witness for C5 at concrete keys of lengths 14, 6 and 5. -/
theorem vec_to_u64_layout_witness :
    vec_to_u64 (([1, 2, 3, 4, 5, 0, 0, 0, 0, 0, 0, 1, 2, 9] : List Nat).drop 5) =
      beBytes ((([1, 2, 3, 4, 5, 0, 0, 0, 0, 0, 0, 1, 2, 9] : List Nat).drop 5).take 8) ∧
    vec_to_u64 (([1, 2, 3, 4, 5, 7] : List Nat).drop 5) =
      beBytes (([1, 2, 3, 4, 5, 7] : List Nat).drop 5 ++ List.replicate (8 - (6 - 5)) 0) ∧
    vec_to_u64 (([1, 2, 3, 4, 5] : List Nat).drop 5) = 0 :=
  ⟨(vec_to_u64_layout [1, 2, 3, 4, 5, 0, 0, 0, 0, 0, 0, 1, 2, 9] (by decide)).1 (by decide),
   (vec_to_u64_layout [1, 2, 3, 4, 5, 7] (by decide)).2.1 (by decide),
   (vec_to_u64_layout [1, 2, 3, 4, 5] (by decide)).2.2 (by decide)⟩

/-- C10: a key shorter than 5 bytes makes the router panic (the
`&key[..5]` slice), while for a key of length at least 5 the
`slice_to_array` call on the first 5 bytes always succeeds, so its error
branch is unreachable. -/
theorem short_key_panics (oracle : FetchOracle) (e : ChangeEntry) :
    (e.key.length < 5 → processEntry oracle e = StepOutcome.panic) ∧
    (5 ≤ e.key.length →
      slice_to_array (e.key.take 5) = Except.ok (e.key.take 5)) := by
  constructor
  · intro h
    simp [processEntry, h]
  · intro h
    exact slice_to_array_take5 e.key h

/-- Witness for C10: a 2-byte key panics; a 6-byte key slices fine. -/
theorem short_key_panics_witness :
    processEntry notFoundOracle ⟨1, Method.Delete, [0, 1]⟩ = StepOutcome.panic ∧
    slice_to_array (([9, 8, 7, 6, 5, 4] : List Nat).take 5) =
      Except.ok (([9, 8, 7, 6, 5, 4] : List Nat).take 5) :=
  ⟨(short_key_panics notFoundOracle ⟨1, Method.Delete, [0, 1]⟩).1 (by decide),
   (short_key_panics notFoundOracle ⟨1, Method.Delete, [9, 8, 7, 6, 5, 4]⟩).2 (by decide)⟩

/-- C4: an entry whose first 5 key bytes match none of the three prefixes
is dropped: no queue item, no fetch (the outcome is `skip` for every
oracle), and the loop continues with the sentinel updated and nothing
emitted. -/
theorem unknown_key_dropped (oracle : FetchOracle) (s0 : Nat) (e : ChangeEntry)
    (h5 : 5 ≤ e.key.length)
    (h1 : e.key.take 5 ≠ PREFIX_SUBSPACE_KEY)
    (h2 : e.key.take 5 ≠ PREFIX_ARTICLE_KEY)
    (h3 : e.key.take 5 ≠ PREFIX_COMMENT_KEY) :
    processEntry oracle e = StepOutcome.skip ∧
    runEntries oracle s0 [e] =
      { items := [], sentinel := e.reqnum, fatal := false } := by
  have hlen : ¬ e.key.length < 5 := Nat.not_lt.mpr h5
  have hskip : processEntry oracle e = StepOutcome.skip := by
    simp [processEntry, hlen, slice_to_array_take5 e.key h5, h1, h2, h3]
  exact ⟨hskip, by simp [runEntries, hskip]⟩

/-- Witness for C4 at a concrete unrecognized key. -/
theorem unknown_key_dropped_witness :
    processEntry notFoundOracle ⟨7, Method.Create, [0, 0, 0, 0, 0, 1]⟩ =
      StepOutcome.skip ∧
    runEntries notFoundOracle 3 [⟨7, Method.Create, [0, 0, 0, 0, 0, 1]⟩] =
      { items := [], sentinel := 7, fatal := false } :=
  unknown_key_dropped notFoundOracle 3 ⟨7, Method.Create, [0, 0, 0, 0, 0, 1]⟩
    (by decide) (by decide) (by decide) (by decide)

/-- C6: for a recognized prefix and a Create/Update method, a queue item
is emitted exactly when the fetch decodes to `Ok(Some record)`; a
decoded `Ok(None)` is skipped silently and the sentinel still advances
past the entry. -/
theorem queue_item_iff_found (oracle : FetchOracle) (s0 : Nat) (e : ChangeEntry)
    (h5 : 5 ≤ e.key.length)
    (hm : e.method = Method.Create ∨ e.method = Method.Update) :
    (e.key.take 5 = PREFIX_SUBSPACE_KEY →
      ((∃ it, processEntry oracle e = StepOutcome.emit it) ↔
        (∃ sb, oracle.get_subspace (vec_to_u64 (e.key.drop 5)) =
          FetchResult.found sb)) ∧
      (oracle.get_subspace (vec_to_u64 (e.key.drop 5)) = FetchResult.notFound →
        processEntry oracle e = StepOutcome.skip ∧
        runEntries oracle s0 [e] =
          { items := [], sentinel := e.reqnum, fatal := false })) ∧
    (e.key.take 5 = PREFIX_ARTICLE_KEY →
      ((∃ it, processEntry oracle e = StepOutcome.emit it) ↔
        (∃ a, oracle.get_article (vec_to_u64 (e.key.drop 5)) =
          FetchResult.found a)) ∧
      (oracle.get_article (vec_to_u64 (e.key.drop 5)) = FetchResult.notFound →
        processEntry oracle e = StepOutcome.skip ∧
        runEntries oracle s0 [e] =
          { items := [], sentinel := e.reqnum, fatal := false })) ∧
    (e.key.take 5 = PREFIX_COMMENT_KEY →
      ((∃ it, processEntry oracle e = StepOutcome.emit it) ↔
        (∃ c, oracle.get_comment (vec_to_u64 (e.key.drop 5)) =
          FetchResult.found c)) ∧
      (oracle.get_comment (vec_to_u64 (e.key.drop 5)) = FetchResult.notFound →
        processEntry oracle e = StepOutcome.skip ∧
        runEntries oracle s0 [e] =
          { items := [], sentinel := e.reqnum, fatal := false })) := by
  refine ⟨?_, ?_, ?_⟩
  · intro hp
    have hnorm := processEntry_subspace oracle e h5 hp
    have hnorm2 : processEntry oracle e =
        match oracle.get_subspace (vec_to_u64 (e.key.drop 5)) with
        | FetchResult.decodeFail => StepOutcome.panic
        | FetchResult.found sb =>
          StepOutcome.emit ⟨"subspace", e.method, JsonValue.subspaceVal sb⟩
        | _ => StepOutcome.skip := by
      rcases hm with hm | hm <;> rw [hm] at hnorm ⊢ <;> exact hnorm
    constructor
    · constructor
      · rintro ⟨it, hit⟩
        rw [hnorm2] at hit
        cases ho : oracle.get_subspace (vec_to_u64 (e.key.drop 5)) <;>
          rw [ho] at hit <;> simp at hit
        case found sb => exact ⟨sb, rfl⟩
      · rintro ⟨sb, hsb⟩
        exact ⟨_, by rw [hnorm2, hsb]⟩
    · intro hnf
      have hskip : processEntry oracle e = StepOutcome.skip := by
        rw [hnorm2, hnf]
      exact ⟨hskip, by simp [runEntries, hskip]⟩
  · intro hp
    have hnorm := processEntry_article oracle e h5 hp
    have hnorm2 : processEntry oracle e =
        match oracle.get_article (vec_to_u64 (e.key.drop 5)) with
        | FetchResult.decodeFail => StepOutcome.panic
        | FetchResult.found a =>
          StepOutcome.emit ⟨"article", e.method, JsonValue.articleVal a⟩
        | _ => StepOutcome.skip := by
      rcases hm with hm | hm <;> rw [hm] at hnorm ⊢ <;> exact hnorm
    constructor
    · constructor
      · rintro ⟨it, hit⟩
        rw [hnorm2] at hit
        cases ho : oracle.get_article (vec_to_u64 (e.key.drop 5)) <;>
          rw [ho] at hit <;> simp at hit
        case found a => exact ⟨a, rfl⟩
      · rintro ⟨a, ha⟩
        exact ⟨_, by rw [hnorm2, ha]⟩
    · intro hnf
      have hskip : processEntry oracle e = StepOutcome.skip := by
        rw [hnorm2, hnf]
      exact ⟨hskip, by simp [runEntries, hskip]⟩
  · intro hp
    have hnorm := processEntry_comment oracle e h5 hp
    have hnorm2 : processEntry oracle e =
        match oracle.get_comment (vec_to_u64 (e.key.drop 5)) with
        | FetchResult.decodeFail => StepOutcome.panic
        | FetchResult.found c =>
          StepOutcome.emit ⟨"comment", e.method, JsonValue.commentVal c⟩
        | _ => StepOutcome.skip := by
      rcases hm with hm | hm <;> rw [hm] at hnorm ⊢ <;> exact hnorm
    constructor
    · constructor
      · rintro ⟨it, hit⟩
        rw [hnorm2] at hit
        cases ho : oracle.get_comment (vec_to_u64 (e.key.drop 5)) <;>
          rw [ho] at hit <;> simp at hit
        case found c => exact ⟨c, rfl⟩
      · rintro ⟨c, hc⟩
        exact ⟨_, by rw [hnorm2, hc]⟩
    · intro hnf
      have hskip : processEntry oracle e = StepOutcome.skip := by
        rw [hnorm2, hnf]
      exact ⟨hskip, by simp [runEntries, hskip]⟩

/-- Witness for C6: the spec's example — an Update on a comment key with
id 5 whose fetch reports "not found" — emits nothing and the sentinel
still advances to the entry's sequence number. -/
theorem queue_item_iff_found_witness :
    processEntry notFoundOracle
      ⟨11, Method.Update, PREFIX_COMMENT_KEY ++ [0, 0, 0, 0, 0, 0, 0, 5]⟩ =
      StepOutcome.skip ∧
    runEntries notFoundOracle 2
      [⟨11, Method.Update, PREFIX_COMMENT_KEY ++ [0, 0, 0, 0, 0, 0, 0, 5]⟩] =
      { items := [], sentinel := 11, fatal := false } :=
  ((queue_item_iff_found notFoundOracle 2
      ⟨11, Method.Update, PREFIX_COMMENT_KEY ++ [0, 0, 0, 0, 0, 0, 0, 5]⟩
      (by decide) (Or.inr rfl)).2.2 (by decide)).2 rfl

/-- C1 counterexample: a per-entity fetch that decodes to a remote
`Err(String)` is NOT fatal — the `if let Ok(Some(_))` in `main.rs` simply
does not match, the entry is skipped, and the cycle completes with the
sentinel advanced, contradicting the claim that such an error terminates
the poller loop. -/
theorem fetch_remote_err_not_fatal_cex :
    processEntry errOracle
      ⟨10, Method.Create, PREFIX_SUBSPACE_KEY ++ [0, 0, 0, 0, 0, 0, 0, 42]⟩ =
      StepOutcome.skip ∧
    pollCycle errOracle 0
      (PollInput.entries
        [⟨10, Method.Create, PREFIX_SUBSPACE_KEY ++ [0, 0, 0, 0, 0, 0, 0, 42]⟩]) =
      { items := [], sentinel := 10, fatal := false } := by
  decide

/-- C1 amended: a remote-reported application error decoded from a
per-entity fetch is silently skipped exactly like a not-found response —
no queue item, the loop continues and the sentinel advances — while a
malformed fetch envelope (decode failure) is fatal and aborts the cycle
before the sentinel update. -/
theorem fetch_remote_err_skipped (oracle : FetchOracle) (s0 : Nat)
    (e : ChangeEntry) (h5 : 5 ≤ e.key.length)
    (hm : e.method = Method.Create ∨ e.method = Method.Update) :
    (e.key.take 5 = PREFIX_SUBSPACE_KEY →
      (∀ msg, oracle.get_subspace (vec_to_u64 (e.key.drop 5)) =
          FetchResult.remoteErr msg →
        processEntry oracle e = StepOutcome.skip ∧
        runEntries oracle s0 [e] =
          { items := [], sentinel := e.reqnum, fatal := false }) ∧
      (oracle.get_subspace (vec_to_u64 (e.key.drop 5)) = FetchResult.decodeFail →
        processEntry oracle e = StepOutcome.panic ∧
        runEntries oracle s0 [e] =
          { items := [], sentinel := s0, fatal := true })) ∧
    (e.key.take 5 = PREFIX_ARTICLE_KEY →
      (∀ msg, oracle.get_article (vec_to_u64 (e.key.drop 5)) =
          FetchResult.remoteErr msg →
        processEntry oracle e = StepOutcome.skip ∧
        runEntries oracle s0 [e] =
          { items := [], sentinel := e.reqnum, fatal := false }) ∧
      (oracle.get_article (vec_to_u64 (e.key.drop 5)) = FetchResult.decodeFail →
        processEntry oracle e = StepOutcome.panic ∧
        runEntries oracle s0 [e] =
          { items := [], sentinel := s0, fatal := true })) ∧
    (e.key.take 5 = PREFIX_COMMENT_KEY →
      (∀ msg, oracle.get_comment (vec_to_u64 (e.key.drop 5)) =
          FetchResult.remoteErr msg →
        processEntry oracle e = StepOutcome.skip ∧
        runEntries oracle s0 [e] =
          { items := [], sentinel := e.reqnum, fatal := false }) ∧
      (oracle.get_comment (vec_to_u64 (e.key.drop 5)) = FetchResult.decodeFail →
        processEntry oracle e = StepOutcome.panic ∧
        runEntries oracle s0 [e] =
          { items := [], sentinel := s0, fatal := true })) := by
  refine ⟨?_, ?_, ?_⟩
  · intro hp
    have hnorm := processEntry_subspace oracle e h5 hp
    have hnorm2 : processEntry oracle e =
        match oracle.get_subspace (vec_to_u64 (e.key.drop 5)) with
        | FetchResult.decodeFail => StepOutcome.panic
        | FetchResult.found sb =>
          StepOutcome.emit ⟨"subspace", e.method, JsonValue.subspaceVal sb⟩
        | _ => StepOutcome.skip := by
      rcases hm with hm | hm <;> rw [hm] at hnorm ⊢ <;> exact hnorm
    constructor
    · intro msg hmsg
      have hskip : processEntry oracle e = StepOutcome.skip := by
        rw [hnorm2, hmsg]
      exact ⟨hskip, by simp [runEntries, hskip]⟩
    · intro hdf
      have hpanic : processEntry oracle e = StepOutcome.panic := by
        rw [hnorm2, hdf]
      exact ⟨hpanic, by simp [runEntries, hpanic]⟩
  · intro hp
    have hnorm := processEntry_article oracle e h5 hp
    have hnorm2 : processEntry oracle e =
        match oracle.get_article (vec_to_u64 (e.key.drop 5)) with
        | FetchResult.decodeFail => StepOutcome.panic
        | FetchResult.found a =>
          StepOutcome.emit ⟨"article", e.method, JsonValue.articleVal a⟩
        | _ => StepOutcome.skip := by
      rcases hm with hm | hm <;> rw [hm] at hnorm ⊢ <;> exact hnorm
    constructor
    · intro msg hmsg
      have hskip : processEntry oracle e = StepOutcome.skip := by
        rw [hnorm2, hmsg]
      exact ⟨hskip, by simp [runEntries, hskip]⟩
    · intro hdf
      have hpanic : processEntry oracle e = StepOutcome.panic := by
        rw [hnorm2, hdf]
      exact ⟨hpanic, by simp [runEntries, hpanic]⟩
  · intro hp
    have hnorm := processEntry_comment oracle e h5 hp
    have hnorm2 : processEntry oracle e =
        match oracle.get_comment (vec_to_u64 (e.key.drop 5)) with
        | FetchResult.decodeFail => StepOutcome.panic
        | FetchResult.found c =>
          StepOutcome.emit ⟨"comment", e.method, JsonValue.commentVal c⟩
        | _ => StepOutcome.skip := by
      rcases hm with hm | hm <;> rw [hm] at hnorm ⊢ <;> exact hnorm
    constructor
    · intro msg hmsg
      have hskip : processEntry oracle e = StepOutcome.skip := by
        rw [hnorm2, hmsg]
      exact ⟨hskip, by simp [runEntries, hskip]⟩
    · intro hdf
      have hpanic : processEntry oracle e = StepOutcome.panic := by
        rw [hnorm2, hdf]
      exact ⟨hpanic, by simp [runEntries, hpanic]⟩

/-- Witness for the amended C1 at a concrete article-prefixed key whose
fetch reports a remote error. -/
theorem fetch_remote_err_skipped_witness :
    processEntry errOracle
      ⟨21, Method.Update, PREFIX_ARTICLE_KEY ++ [0, 0, 0, 0, 0, 0, 0, 7]⟩ =
      StepOutcome.skip ∧
    runEntries errOracle 4
      [⟨21, Method.Update, PREFIX_ARTICLE_KEY ++ [0, 0, 0, 0, 0, 0, 0, 7]⟩] =
      { items := [], sentinel := 21, fatal := false } :=
  ((fetch_remote_err_skipped errOracle 4
      ⟨21, Method.Update, PREFIX_ARTICLE_KEY ++ [0, 0, 0, 0, 0, 0, 0, 7]⟩
      (by decide) (Or.inr rfl)).2.1 (by decide)).1 "boom" rfl

/-- When no entry panics, the sentinel after the loop is the fold that
keeps the last entry's sequence number (or the start value on an empty
list). -/
theorem runEntries_sentinel_foldl (oracle : FetchOracle) (es : List ChangeEntry) :
    ∀ s0 : Nat, (runEntries oracle s0 es).fatal = false →
      (runEntries oracle s0 es).sentinel =
        es.foldl (fun _ x => x.reqnum) s0 := by
  induction es with
  | nil => intro s0 _; rfl
  | cons e rest ih =>
    intro s0 h
    cases hpe : processEntry oracle e with
    | panic => simp [runEntries, hpe] at h
    | emit it =>
      simp only [runEntries, hpe] at h ⊢
      exact ih e.reqnum h
    | skip =>
      simp only [runEntries, hpe, List.foldl_cons] at h ⊢
      exact ih e.reqnum h

/-- The last-value fold lands on the sequence number of some member of a
nonempty list. -/
theorem foldl_last_mem (es : List ChangeEntry) :
    ∀ s0 : Nat, es ≠ [] →
      ∃ e ∈ es, es.foldl (fun _ x => x.reqnum) s0 = e.reqnum := by
  induction es with
  | nil => intro s0 h; exact absurd rfl h
  | cons e rest ih =>
    intro s0 _
    cases rest with
    | nil => exact ⟨e, by simp, by simp⟩
    | cons b t =>
      obtain ⟨x, hx, hf⟩ := ih e.reqnum (by simp)
      exact ⟨x, List.mem_cons_of_mem e hx, by simpa using hf⟩

/-- On a list sorted by non-decreasing sequence number, the last-value
fold dominates every member. -/
theorem foldl_last_ge (es : List ChangeEntry) :
    es.Pairwise (fun a b => a.reqnum ≤ b.reqnum) →
    ∀ s0 : Nat, ∀ e ∈ es, e.reqnum ≤ es.foldl (fun _ x => x.reqnum) s0 := by
  induction es with
  | nil => intro _ s0 e he; cases he
  | cons a rest ih =>
    intro hsort s0 e he
    have hs := List.pairwise_cons.mp hsort
    cases rest with
    | nil =>
      have : e = a := by simpa using he
      subst this
      simp
    | cons b t =>
      rcases List.mem_cons.mp he with he | he
      · subst he
        obtain ⟨x, hx, hf⟩ := foldl_last_mem (b :: t) e.reqnum (by simp)
        simp only [List.foldl_cons] at hf ⊢
        rw [hf]
        exact hs.1 x hx
      · have := ih hs.2 a.reqnum e he
        simpa using this

/-- C2: assuming the remote delivers entries in non-decreasing sequence
order, all greater than the current cursor, and the cycle completes
without a fatal error: the sentinel never decreases, is unchanged by an
empty cycle, and after a non-empty cycle equals the maximum sequence
number among the cycle's entries (dropped entries included). -/
theorem sentinel_tracks_max_seq (oracle : FetchOracle) (s0 : Nat)
    (es : List ChangeEntry)
    (hsort : es.Pairwise (fun a b => a.reqnum ≤ b.reqnum))
    (hgt : ∀ e ∈ es, s0 < e.reqnum)
    (hok : (runEntries oracle s0 es).fatal = false) :
    s0 ≤ (runEntries oracle s0 es).sentinel ∧
    (es = [] → (runEntries oracle s0 es).sentinel = s0) ∧
    (es ≠ [] →
      (∀ e ∈ es, e.reqnum ≤ (runEntries oracle s0 es).sentinel) ∧
      ∃ e ∈ es, (runEntries oracle s0 es).sentinel = e.reqnum) := by
  have hfold := runEntries_sentinel_foldl oracle es s0 hok
  refine ⟨?_, ?_, ?_⟩
  · by_cases hne : es = []
    · subst hne
      rw [hfold]
      simp
    · obtain ⟨e, he, hf⟩ := foldl_last_mem es s0 hne
      rw [hfold, hf]
      exact Nat.le_of_lt (hgt e he)
  · intro h
    subst h
    rw [hfold]
    simp
  · intro hne
    refine ⟨?_, ?_⟩
    · intro e he
      rw [hfold]
      exact foldl_last_ge es hsort s0 e he
    · obtain ⟨e, he, hf⟩ := foldl_last_mem es s0 hne
      exact ⟨e, he, by rw [hfold, hf]⟩

/-- Witness for C2: a two-entry cycle — a subspace delete at sequence 1
and an unrecognized-key entry at sequence 2 — ends with the sentinel at
the maximum sequence 2. -/
theorem sentinel_tracks_max_seq_witness :
    2 ≤ (runEntries notFoundOracle 0 [entW1, entW2]).sentinel ∧
    (runEntries notFoundOracle 0 [entW1, entW2]).sentinel = 2 :=
  ⟨((sentinel_tracks_max_seq notFoundOracle 0 [entW1, entW2]
      (by decide) (by decide) (by decide)).2.2 (by decide)).1 entW2 (by decide),
   by decide⟩

/-- Normal form of the subspace upsert dispatch. -/
theorem handle_subspace_upsert (s : Store) (method : Method) (value : JsonValue)
    (hm : method = Method.Create ∨ method = Method.Update) :
    handle_database_operation s "subspace" method value =
      match fromValueSubspace value with
      | none => DbOutcome.error "json decode error"
      | some sb =>
        DbOutcome.ok
          { s with subspaces := upsertRow SubspaceRow.id s.subspaces (subspaceToRow sb) } := by
  rcases hm with h | h <;> subst h <;> rfl

/-- Normal form of the article upsert dispatch. -/
theorem handle_article_upsert (s : Store) (method : Method) (value : JsonValue)
    (hm : method = Method.Create ∨ method = Method.Update) :
    handle_database_operation s "article" method value =
      match fromValueArticle value with
      | none => DbOutcome.error "json decode error"
      | some a =>
        if s.subspaces.any (fun r => r.id = (articleToRow a).subspace_id) then
          DbOutcome.ok
            { s with articles := upsertRow ArticleRow.id s.articles (articleToRow a) }
        else DbOutcome.error "foreign key violation" := by
  rcases hm with h | h <;> subst h <;> rfl

/-- Normal form of the comment upsert dispatch. -/
theorem handle_comment_upsert (s : Store) (method : Method) (value : JsonValue)
    (hm : method = Method.Create ∨ method = Method.Update) :
    handle_database_operation s "comment" method value =
      match fromValueComment value with
      | none => DbOutcome.error "json decode error"
      | some c =>
        if s.articles.any (fun r => r.id = (commentToRow c).post_id) then
          DbOutcome.ok
            { s with comments := upsertRow CommentRow.id s.comments (commentToRow c) }
        else DbOutcome.error "foreign key violation" := by
  rcases hm with h | h <;> subst h <;> rfl

/-- Normal form of the subspace delete dispatch. -/
theorem handle_subspace_delete (s : Store) (value : JsonValue) :
    handle_database_operation s "subspace" Method.Delete value =
      match jsonAsI64 value with
      | none => DbOutcome.panic
      | some id =>
        if s.subspaces.any (fun r => r.id = id) ∧
            s.articles.any (fun r => r.subspace_id = id) then
          DbOutcome.error "foreign key violation"
        else
          DbOutcome.ok
            { s with subspaces := deleteRow SubspaceRow.id s.subspaces id } := rfl

/-- Normal form of the article delete dispatch. -/
theorem handle_article_delete (s : Store) (value : JsonValue) :
    handle_database_operation s "article" Method.Delete value =
      match jsonAsI64 value with
      | none => DbOutcome.panic
      | some id =>
        if s.articles.any (fun r => r.id = id) ∧
            s.comments.any (fun r => r.post_id = id) then
          DbOutcome.error "foreign key violation"
        else
          DbOutcome.ok
            { s with articles := deleteRow ArticleRow.id s.articles id } := rfl

/-- Normal form of the comment delete dispatch. -/
theorem handle_comment_delete (s : Store) (value : JsonValue) :
    handle_database_operation s "comment" Method.Delete value =
      match jsonAsI64 value with
      | none => DbOutcome.panic
      | some id =>
        DbOutcome.ok
          { s with comments := deleteRow CommentRow.id s.comments id } := rfl

/-- The insert-or-overwrite row operation is idempotent on any table. -/
theorem upsertRow_idem {α : Type} (getId : α → Int) (t : List α) (r : α) :
    upsertRow getId (upsertRow getId t r) r = upsertRow getId t r := by
  unfold upsertRow
  by_cases h : t.any (fun x => getId x = getId r) = true
  · rw [if_pos h]
    obtain ⟨x, hx, hpx⟩ := List.any_eq_true.mp h
    have hpx' : getId x = getId r := by simpa using hpx
    have hany : (t.map (fun y => if getId y = getId r then r else y)).any
        (fun y => getId y = getId r) = true := by
      apply List.any_eq_true.mpr
      refine ⟨r, ?_, by simp⟩
      refine List.mem_map.mpr ⟨x, hx, ?_⟩
      rw [if_pos hpx']
    rw [if_pos hany, List.map_map]
    apply List.map_congr_left
    intro y _
    by_cases hy : getId y = getId r
    · simp [hy]
    · simp [hy]
  · rw [if_neg h]
    have hany : (t ++ [r]).any (fun y => getId y = getId r) = true := by
      simp
    rw [if_pos hany, List.map_append]
    have hf : t.any (fun y => getId y = getId r) = false := by
      cases hb : t.any (fun y => getId y = getId r) with
      | false => rfl
      | true => exact absurd hb h
    have hnone : ∀ y ∈ t, ¬ getId y = getId r := by
      intro y hy
      have := List.any_eq_false.mp hf y hy
      simpa using this
    have ht : t.map (fun y => if getId y = getId r then r else y) = t := by
      have hcong : t.map (fun y => if getId y = getId r then r else y) = t.map id :=
        List.map_congr_left (fun y hy => by rw [if_neg (hnone y hy)]; rfl)
      rw [hcong, List.map_id]
    rw [ht]
    simp

/-- C3: upsert is idempotent — if applying a Create/Update item once
yields store `s1`, applying the same item again from `s1` yields exactly
`s1` (the row and the whole table unchanged). -/
theorem upsert_idempotent (s s1 : Store) (model : String) (method : Method)
    (value : JsonValue)
    (hm : method = Method.Create ∨ method = Method.Update)
    (hmodel : model = "subspace" ∨ model = "article" ∨ model = "comment")
    (h : handle_database_operation s model method value = DbOutcome.ok s1) :
    handle_database_operation s1 model method value = DbOutcome.ok s1 := by
  rcases hmodel with hmo | hmo | hmo <;> subst hmo
  · cases hv : fromValueSubspace value with
    | none =>
      rw [handle_subspace_upsert s method value hm] at h
      simp [hv] at h
    | some sb =>
      simp only [handle_subspace_upsert s method value hm, hv,
        DbOutcome.ok.injEq] at h
      simp only [handle_subspace_upsert s1 method value hm, hv,
        DbOutcome.ok.injEq]
      subst h
      simp [upsertRow_idem]
  · cases hv : fromValueArticle value with
    | none =>
      rw [handle_article_upsert s method value hm] at h
      simp [hv] at h
    | some a =>
      simp only [handle_article_upsert s method value hm, hv] at h
      simp only [handle_article_upsert s1 method value hm, hv]
      by_cases hfk : s.subspaces.any
          (fun r => r.id = (articleToRow a).subspace_id) = true
      · rw [if_pos hfk] at h
        simp only [DbOutcome.ok.injEq] at h
        subst h
        simp only [Store.subspaces]
        rw [if_pos hfk]
        simp [upsertRow_idem]
      · rw [if_neg hfk] at h
        simp at h
  · cases hv : fromValueComment value with
    | none =>
      rw [handle_comment_upsert s method value hm] at h
      simp [hv] at h
    | some c =>
      simp only [handle_comment_upsert s method value hm, hv] at h
      simp only [handle_comment_upsert s1 method value hm, hv]
      by_cases hfk : s.articles.any
          (fun r => r.id = (commentToRow c).post_id) = true
      · rw [if_pos hfk] at h
        simp only [DbOutcome.ok.injEq] at h
        subst h
        simp only [Store.articles]
        rw [if_pos hfk]
        simp [upsertRow_idem]
      · rw [if_neg hfk] at h
        simp at h

/-- Witness for C3: upserting the spec's example subspace into the store
that already holds it leaves the store unchanged. -/
theorem upsert_idempotent_witness :
    handle_database_operation
      { subspaces := [subspaceToRow sbExample], articles := [], comments := [] }
      "subspace" Method.Create (JsonValue.subspaceVal sbExample) =
    DbOutcome.ok
      { subspaces := [subspaceToRow sbExample], articles := [], comments := [] } :=
  upsert_idempotent emptyStore
    { subspaces := [subspaceToRow sbExample], articles := [], comments := [] }
    "subspace" Method.Create (JsonValue.subspaceVal sbExample)
    (Or.inl rfl) (Or.inl rfl) (by decide)

/-- C7: when `handle_database_operation` returns an error for a dequeued
item, the writer logs it, drops the item (the store passed to the rest of
the loop is unchanged), and keeps consuming the remaining items — a
returned error never ends the loop. -/
theorem writer_error_continues (s : Store) (it : QueueItem)
    (rest : List QueueItem) (e : String)
    (h : handle_database_operation s it.model it.method it.value =
      DbOutcome.error e) :
    runWriter s (it :: rest) =
      { runWriter s rest with log := e :: (runWriter s rest).log } := by
  simp only [runWriter, h]

/-- Witness for C7: an item with an unknown model errors, is logged and
dropped, and the following delete item is still processed. -/
theorem writer_error_continues_witness :
    runWriter emptyStore
      [⟨"bogus", Method.Create, JsonValue.numVal 1⟩,
       ⟨"subspace", Method.Delete, JsonValue.numVal 5⟩] =
      { store := emptyStore, log := ["Invalid operation"], panicked := false } := by
  rw [writer_error_continues emptyStore
    ⟨"bogus", Method.Create, JsonValue.numVal 1⟩
    [⟨"subspace", Method.Delete, JsonValue.numVal 5⟩]
    "Invalid operation" (by decide)]
  decide

/-- C8 counterexample: a delete queue item whose id exceeds `i64::MAX`
makes `handle_database_operation` panic (the `as_i64().unwrap()`) instead
of returning `Ok`, even though the id has no corresponding row — so the
claim does not hold for every delete id. -/
theorem delete_missing_id_cex :
    handle_database_operation emptyStore "subspace" Method.Delete
      (JsonValue.numVal (2 ^ 63)) = DbOutcome.panic := by
  decide

/-- C8 amended: for every delete on a known model whose id is at most
`i64::MAX` and has no corresponding row, the operation returns `Ok` with
the store unchanged, so re-applying the same delete is again a no-op. -/
theorem delete_missing_id_noop (s : Store) (model : String) (id : Nat)
    (hmodel : model = "subspace" ∨ model = "article" ∨ model = "comment")
    (hid : id < 2 ^ 63)
    (hno : (model = "subspace" → ∀ r ∈ s.subspaces, r.id ≠ Int.ofNat id) ∧
           (model = "article" → ∀ r ∈ s.articles, r.id ≠ Int.ofNat id) ∧
           (model = "comment" → ∀ r ∈ s.comments, r.id ≠ Int.ofNat id)) :
    handle_database_operation s model Method.Delete (JsonValue.numVal id) =
      DbOutcome.ok s := by
  have hj : jsonAsI64 (JsonValue.numVal id) = some (Int.ofNat id) := by
    simp only [jsonAsI64]
    rw [if_pos hid]
  rcases hmodel with hmo | hmo | hmo <;> subst hmo
  · have hno' := hno.1 rfl
    have hany : s.subspaces.any (fun r => r.id = Int.ofNat id) = false := by
      apply List.any_eq_false.mpr
      intro r hr
      simpa using hno' r hr
    have hdel : deleteRow SubspaceRow.id s.subspaces (Int.ofNat id) = s.subspaces := by
      unfold deleteRow
      apply List.filter_eq_self.mpr
      intro r hr
      simpa using hno' r hr
    simp only [handle_subspace_delete, hj]
    rw [if_neg (by rw [hany]; simp), hdel]
  · have hno' := hno.2.1 rfl
    have hany : s.articles.any (fun r => r.id = Int.ofNat id) = false := by
      apply List.any_eq_false.mpr
      intro r hr
      simpa using hno' r hr
    have hdel : deleteRow ArticleRow.id s.articles (Int.ofNat id) = s.articles := by
      unfold deleteRow
      apply List.filter_eq_self.mpr
      intro r hr
      simpa using hno' r hr
    simp only [handle_article_delete, hj]
    rw [if_neg (by rw [hany]; simp), hdel]
  · have hno' := hno.2.2 rfl
    have hdel : deleteRow CommentRow.id s.comments (Int.ofNat id) = s.comments := by
      unfold deleteRow
      apply List.filter_eq_self.mpr
      intro r hr
      simpa using hno' r hr
    simp only [handle_comment_delete, hj]
    rw [hdel]

/-- Witness for the amended C8: the spec's example — deleting article
id 7 when no such row exists — succeeds and changes nothing. -/
theorem delete_missing_id_noop_witness :
    handle_database_operation
      { subspaces := [subspaceToRow sbExample], articles := [], comments := [] }
      "article" Method.Delete (JsonValue.numVal 7) =
    DbOutcome.ok
      { subspaces := [subspaceToRow sbExample], articles := [], comments := [] } :=
  delete_missing_id_noop
    { subspaces := [subspaceToRow sbExample], articles := [], comments := [] }
    "article" 7 (Or.inr (Or.inl rfl)) (by decide)
    ⟨by decide, by decide, by decide⟩

/-- C9: a delete queue item whose id exceeds `i64::MAX` panics in
`value.as_i64().unwrap()` and kills the writer task; for an id at or
below `i64::MAX` the conversion succeeds, so the unwrap never fails. -/
theorem delete_id_overflow_panics (s : Store) (model : String) (id : Nat)
    (hmodel : model = "subspace" ∨ model = "article" ∨ model = "comment") :
    (2 ^ 63 ≤ id →
      handle_database_operation s model Method.Delete (JsonValue.numVal id) =
        DbOutcome.panic ∧
      (runWriter s [⟨model, Method.Delete, JsonValue.numVal id⟩]).panicked = true) ∧
    (id < 2 ^ 63 →
      jsonAsI64 (JsonValue.numVal id) = some (Int.ofNat id) ∧
      handle_database_operation s model Method.Delete (JsonValue.numVal id) ≠
        DbOutcome.panic) := by
  constructor
  · intro hge
    have hj : jsonAsI64 (JsonValue.numVal id) = none := by
      simp only [jsonAsI64]
      rw [if_neg (Nat.not_lt.mpr hge)]
    have hp : handle_database_operation s model Method.Delete
        (JsonValue.numVal id) = DbOutcome.panic := by
      rcases hmodel with h | h | h <;> subst h
      · simp only [handle_subspace_delete, hj]
      · simp only [handle_article_delete, hj]
      · simp only [handle_comment_delete, hj]
    exact ⟨hp, by simp [runWriter, hp]⟩
  · intro hlt
    have hj : jsonAsI64 (JsonValue.numVal id) = some (Int.ofNat id) := by
      simp only [jsonAsI64]
      rw [if_pos hlt]
    refine ⟨hj, ?_⟩
    rcases hmodel with h | h | h <;> subst h
    · simp only [handle_subspace_delete, hj]
      split <;> simp
    · simp only [handle_article_delete, hj]
      split <;> simp
    · simp only [handle_comment_delete, hj]
      simp

/-- Witness for C9: id `2 ^ 63` panics, id 5 does not. -/
theorem delete_id_overflow_panics_witness :
    handle_database_operation emptyStore "comment" Method.Delete
      (JsonValue.numVal (2 ^ 63)) = DbOutcome.panic ∧
    handle_database_operation emptyStore "comment" Method.Delete
      (JsonValue.numVal 5) ≠ DbOutcome.panic :=
  ⟨((delete_id_overflow_panics emptyStore "comment" (2 ^ 63)
      (Or.inr (Or.inr rfl))).1 (Nat.le_refl _)).1,
   ((delete_id_overflow_panics emptyStore "comment" 5
      (Or.inr (Or.inr rfl))).2 (by decide)).2⟩

end Surrogate
